import Mathlib

/-!
Verification development for the Autonomous-Trader paper-trading engine.

The definitions below are a shallow embedding of
`autonomous_trader/utils/trade_executor.py` (the `PaperBroker` class) and
`autonomous_trader/strategies/ai_combo_strategy.py` (`generate_signal`).
Python floats are modelled as exact rationals (`ℚ`); Python `dict`s keyed by
symbol are modelled as association lists with unique keys; file persistence is
dropped (the persisted data lives in the explicit `BrokerState`); wall-clock
inputs (`time.time()`, today's UTC date string) are passed as explicit
arguments.
-/

namespace AutoTrader

/-- Python `dict.get(k)`: first value bound to `k` in an association list. -/
def alookup {α : Type} (k : String) : List (String × α) → Option α
  | [] => none
  | (k', v) :: rest => if k' = k then some v else alookup k rest

/-- Python `dict[k] = v`: replace the binding of `k` if present, else append. -/
def upsert {α : Type} (k : String) (v : α) : List (String × α) → List (String × α)
  | [] => [(k, v)]
  | (k', v') :: rest => if k' = k then (k, v) :: rest else (k', v') :: upsert k v rest

/-- Python `del dict[k]`: drop every binding of `k` (keys are unique). -/
def eraseKey {α : Type} (k : String) : List (String × α) → List (String × α)
  | [] => []
  | (k', v) :: rest => if k' = k then eraseKey k rest else (k', v) :: eraseKey k rest

/-- Python `list.remove(x)` guarded by `if x in list`: drop the first occurrence. -/
def removeFirst (x : String) : List String → List String
  | [] => []
  | y :: rest => if y = x then rest else y :: removeFirst x rest

/-- An open position, as stored in `PaperBroker.positions` by `buy`.
All keys that `buy` writes are present, so the `pos.get(key, default)`
fallbacks in `update_trailing` never fire and are not modelled. -/
structure Position where
  qty : ℚ
  entry : ℚ
  peak : ℚ
  stop : ℚ
  tp_price : ℚ
  activate_profit_pct : ℚ
  breakeven_trigger_pct : ℚ
  trailing_stop_pct : ℚ
  atr_trail_multiplier : ℚ
  atr_pct : Option ℚ
  trail_active : Bool
deriving DecidableEq

/-- The optional entries of the `meta` dict passed to `buy` that the broker
reads (`meta.get(...)`); `none` models an absent key. -/
structure Meta where
  stop_loss_pct : Option ℚ := none
  take_profit_pct : Option ℚ := none
  atr_pct : Option ℚ := none
  activate_profit_pct : Option ℚ := none
  breakeven_trigger_pct : Option ℚ := none
  trailing_stop_pct : Option ℚ := none
  atr_trail_multiplier : Option ℚ := none
deriving DecidableEq

/-- Result of the per-symbol merge
`trailing_cfg = {base minus overrides} | overrides[symbol]` in `buy`;
`none` models a key absent from the merged dict. -/
structure TrailingCfg where
  activate_profit_pct : Option ℚ := none
  breakeven_pct : Option ℚ := none
  trail_pct : Option ℚ := none
  atr_trail_multiplier : Option ℚ := none
deriving DecidableEq

/-- Broker configuration, resolved the way `PaperBroker.__init__` resolves it
from `config.json` (defaults already applied where `__init__` applies them).
`trailing` is the function `symbol ↦` merged trailing config for that symbol. -/
structure Config where
  max_open : ℕ := 3
  tradable_ratio : ℚ := 0.75
  stake_ratio : ℚ := 0.2
  cooldown_minutes : ℚ := 30
  max_trades_day : ℕ := 10
  daily_loss_limit : Option ℚ := none
  fee_pct : ℚ := 0
  slippage_pct : ℚ := 0
  stop_loss_pct : ℚ := 0.015
  take_profit_pct : Option ℚ := none
  trail_pct : ℚ := 0.012
  symbol_loss_limit : Option ℚ := none
  atr_stop_multiplier : ℚ := 1.5
  trailing : String → TrailingCfg := fun _ => {}

/-- The mutable, persisted ledger state of a `PaperBroker`.
`runtime_whitelist` is the contents of `runtime_whitelist.json`, which `buy`
edits when a symbol breaches the per-symbol loss limit. -/
structure BrokerState where
  balance : ℚ
  positions : List (String × Position)
  cooldowns : List (String × ℚ)
  symbol_pnl : List (String × ℚ)
  daily_trades : ℕ
  trade_day : String
  daily_pnl : ℚ
  pnl_day : String
  runtime_whitelist : List String
deriving DecidableEq

/-- Result dict returned by a successful `buy`. -/
structure BuyResult where
  symbol : String
  qty : ℚ
  price : ℚ
deriving DecidableEq

/-- Result dict returned by a successful `sell`. -/
structure SellResult where
  symbol : String
  qty : ℚ
  price : ℚ
  pnl : ℚ
  balance : ℚ
deriving DecidableEq

namespace PaperBroker

/-- `PaperBroker._on_cooldown`. -/
def on_cooldown (cfg : Config) (now : ℚ) (s : BrokerState) (symbol : String) : Bool :=
  now - ((alookup symbol s.cooldowns).getD 0) < cfg.cooldown_minutes * 60

/-- Day-rollover of the trade counter done at the top of `can_open`. -/
def rolloverTrade (today : String) (s : BrokerState) : BrokerState :=
  if today ≠ s.trade_day then { s with trade_day := today, daily_trades := 0 } else s

/-- Day-rollover of the daily PnL done at the top of `can_open`. -/
def rolloverPnl (today : String) (s : BrokerState) : BrokerState :=
  if today ≠ s.pnl_day then { s with pnl_day := today, daily_pnl := 0 } else s

/-- The rejection chain of `can_open` after the day rollovers: daily loss
limit, daily trade cap, open-position cap, positive tradable balance. -/
def can_open_check (cfg : Config) (s : BrokerState) : Bool :=
  if (match cfg.daily_loss_limit with
      | some l => decide (s.daily_pnl ≤ -(abs l))
      | none => false) then false
  else if cfg.max_trades_day ≤ s.daily_trades then false
  else if cfg.max_open ≤ s.positions.length then false
  else decide (0 < s.balance * cfg.tradable_ratio)

/-- `PaperBroker.can_open`: returns the verdict together with the state,
because the day rollovers mutate the broker. -/
def can_open (cfg : Config) (today : String) (s0 : BrokerState) : Bool × BrokerState :=
  let s := rolloverPnl today (rolloverTrade today s0)
  (can_open_check cfg s, s)

/-- `PaperBroker.stake_amount`. A `some ""` symbol is falsy in Python
(`if symbol:`), so the per-symbol scaling is skipped for it. -/
def stake_amount (cfg : Config) (s : BrokerState) (symbol : Option String) : ℚ :=
  let stake := s.balance * cfg.tradable_ratio * cfg.stake_ratio
  let stake :=
    match symbol with
    | some sym =>
        if sym ≠ "" then
          let pnl := (alookup sym s.symbol_pnl).getD 0
          if 0 < pnl then stake * 1.5
          else if pnl < 0 then stake * 0.5
          else stake
        else stake
    | none => stake
  min stake s.balance

/-- The inverse stop-loss rescale `stake *= base_sl / sl_pct` in `buy`
(applied only when the requested stop-loss percentage is positive). -/
def finalStake (cfg : Config) (meta : Meta) (stake0 : ℚ) : ℚ :=
  let sl_pct := meta.stop_loss_pct.getD cfg.stop_loss_pct
  if 0 < sl_pct then stake0 * (cfg.stop_loss_pct / sl_pct) else stake0

/-- The tail of `PaperBroker.buy` from the `if stake <= 0` check on:
stop-loss rescale, slippage/fee adjustment, position construction. -/
def buyOpen (cfg : Config) (s : BrokerState) (symbol : String) (price : ℚ)
    (meta : Meta) (stake0 : ℚ) : Option BuyResult × BrokerState :=
  if stake0 ≤ 0 then (none, s)
  else
    let sl_pct := meta.stop_loss_pct.getD cfg.stop_loss_pct
    let stake := finalStake cfg meta stake0
    let adj_price := price * (1 + cfg.slippage_pct + cfg.fee_pct)
    let qty := max 0.00000001 (stake / max adj_price 0.000000001)
    let tcfg := cfg.trailing symbol
    let tp_pct := meta.take_profit_pct.getD (cfg.take_profit_pct.getD 0.006)
    let atr_pct :=
      match meta.atr_pct with
      | some a => some a
      | none =>
          if cfg.atr_stop_multiplier ≠ 0 then some (sl_pct / cfg.atr_stop_multiplier) else none
    let pos : Position :=
      { qty := qty
        entry := adj_price
        peak := price
        stop := price * (1 - sl_pct)
        tp_price := price * (1 + tp_pct)
        activate_profit_pct := meta.activate_profit_pct.getD (tcfg.activate_profit_pct.getD 0)
        breakeven_trigger_pct := meta.breakeven_trigger_pct.getD (tcfg.breakeven_pct.getD 0.003)
        trailing_stop_pct := meta.trailing_stop_pct.getD (tcfg.trail_pct.getD cfg.trail_pct)
        atr_trail_multiplier := meta.atr_trail_multiplier.getD (tcfg.atr_trail_multiplier.getD 1)
        atr_pct := atr_pct
        trail_active := false }
    (some ⟨symbol, qty, adj_price⟩,
      { s with balance := s.balance - stake
               positions := upsert symbol pos s.positions
               daily_trades := s.daily_trades + 1 })

/-- `PaperBroker.buy`. `now` and `today` are the wall-clock inputs. -/
def buy (cfg : Config) (now : ℚ) (today : String) (s0 : BrokerState)
    (symbol : String) (price : ℚ) (meta : Meta) : Option BuyResult × BrokerState :=
  let s := (can_open cfg today s0).2
  if !(can_open cfg today s0).1 || on_cooldown cfg now s symbol then (none, s)
  else
    let symbol_pnl := (alookup symbol s.symbol_pnl).getD 0
    let stake0 := stake_amount cfg s (some symbol)
    match cfg.symbol_loss_limit with
    | some limit =>
        if symbol_pnl ≤ limit then
          (none, { s with runtime_whitelist := removeFirst symbol s.runtime_whitelist })
        else
          let stake1 :=
            if symbol_pnl < 0 ∧ 0.8 * abs limit ≤ abs symbol_pnl then stake0 * 0.5 else stake0
          buyOpen cfg s symbol price meta stake1
    | none => buyOpen cfg s symbol price meta stake0

/-- The breakeven / trailing part of `update_trailing` that runs once the
trailing logic is active. -/
def trailCore (p : Position) (price : ℚ) : Position :=
  let p1 :=
    if p.entry * (1 + p.breakeven_trigger_pct) ≤ price
    then { p with stop := max p.stop p.entry } else p
  let t_pct :=
    match p1.atr_pct with
    | some a =>
        if a ≠ 0 ∧ 0 < p1.atr_trail_multiplier then a * p1.atr_trail_multiplier
        else p1.trailing_stop_pct
    | none => p1.trailing_stop_pct
  let trail_stop := p1.peak * (1 - t_pct)
  if p1.stop < trail_stop then { p1 with stop := trail_stop } else p1

/-- `pos["peak"] = max(pos.get("peak", entry), price)`, the first mutation of
`update_trailing` (it happens on every call, before the activation check). -/
def peakStep (pos : Position) (price : ℚ) : Position :=
  { pos with peak := max pos.peak price }

/-- One `update_trailing` call on a single position (the broker method
mutates the stored dict in place; this is that mutation). -/
def trailStep (pos : Position) (price : ℚ) : Position :=
  let posP := peakStep pos price
  if posP.trail_active then trailCore posP price
  else if posP.entry * (1 + posP.activate_profit_pct) ≤ price then
    trailCore { posP with trail_active := true } price
  else posP

/-- `PaperBroker.update_trailing`. -/
def update_trailing (s : BrokerState) (symbol : String) (price : ℚ) : BrokerState :=
  match alookup symbol s.positions with
  | none => s
  | some pos => { s with positions := upsert symbol (trailStep pos price) s.positions }

/-- `PaperBroker.should_exit`: verdict, reason, and the state after the
embedded `update_trailing` call. -/
def should_exit (s : BrokerState) (symbol : String) (price : ℚ) :
    (Bool × String) × BrokerState :=
  match alookup symbol s.positions with
  | none => ((false, "no_pos"), s)
  | some pos =>
      if pos.tp_price ≤ price then ((true, "tp"), s)
      else
        let s1 := update_trailing s symbol price
        match alookup symbol s1.positions with
        | none => ((false, ""), s1)
        | some pos1 =>
            if price ≤ pos1.stop then ((true, "sl_or_trail"), s1) else ((false, ""), s1)

/-- `PaperBroker.sell`. -/
def sell (cfg : Config) (now : ℚ) (s : BrokerState) (symbol : String) (price : ℚ) :
    Option SellResult × BrokerState :=
  match alookup symbol s.positions with
  | none => (none, s)
  | some pos =>
      let adj_price := price * (1 - cfg.slippage_pct - cfg.fee_pct)
      let proceeds := pos.qty * adj_price
      let pnl := proceeds - pos.qty * pos.entry
      (some ⟨symbol, pos.qty, adj_price, pnl, s.balance + proceeds⟩,
        { s with balance := s.balance + proceeds
                 positions := eraseKey symbol s.positions
                 cooldowns := upsert symbol now s.cooldowns
                 symbol_pnl := upsert symbol ((alookup symbol s.symbol_pnl).getD 0 + pnl) s.symbol_pnl
                 daily_pnl := s.daily_pnl + pnl })

end PaperBroker

namespace Strategy

/-- One OHLCV row of the DataFrame handed to `generate_signal`
(the strategy reads only high, low, close and volume). -/
structure Bar where
  high : ℚ
  low : ℚ
  close : ℚ
  volume : ℚ
deriving DecidableEq

/-- The `strategy.filters` config group; `none` models an absent key. -/
structure Filters where
  min_atr_pct : Option ℚ := none
  max_atr_pct : Option ℚ := none
  avg_volume_period : Option ℕ := none
  min_avg_volume : Option ℚ := none
  adx_period : Option ℕ := none
  min_adx : Option ℚ := none
deriving DecidableEq

/-- The parts of the config dict that `generate_signal` reads. -/
structure StratCfg where
  filters : Filters := {}
  buy_score_threshold : Option ℚ := none
  atr_stop_multiplier : Option ℚ := none
  rr_ratio : Option ℚ := none
deriving DecidableEq

/-- The dict returned by `generate_signal`: `failed` is set on HOLD results,
`sl_pct`/`tp_pct` on BUY results. -/
structure Signal where
  signal : String
  score : ℚ
  failed : Option String := none
  sl_pct : Option ℚ := none
  tp_pct : Option ℚ := none
deriving DecidableEq

/-- `series.ewm(alpha=a, adjust=False).mean()` continued after a seed `prev`:
`e_t = (1-a)*e_(t-1) + a*x_t`. -/
def ewmFrom (a prev : ℚ) : List ℚ → List ℚ
  | [] => []
  | x :: xs =>
      let e := (1 - a) * prev + a * x
      e :: ewmFrom a e xs

/-- `series.ewm(alpha=a, adjust=False).mean()`, seeded with the first value. -/
def ewm (a : ℚ) : List ℚ → List ℚ
  | [] => []
  | x :: xs => x :: ewmFrom a x xs

/-- `ema(series, span)`: `series.ewm(span=span, adjust=False).mean()`,
smoothing factor `2/(span+1)`. -/
def ema (series : List ℚ) (span : ℚ) : List ℚ := ewm (2 / (span + 1)) series

/-- `series.diff()` after the first row. -/
def diffFrom (prev : ℚ) : List ℚ → List (Option ℚ)
  | [] => []
  | x :: xs => some (x - prev) :: diffFrom x xs

/-- `series.diff()`: the first entry is NaN (`none`). -/
def diff : List ℚ → List (Option ℚ)
  | [] => []
  | x :: xs => none :: diffFrom x xs

/-- `ewm` over a series with NaN holes, continued after a seed.
A NaN input yields a NaN output and leaves the running mean untouched. -/
def ewmOptFrom (a prev : ℚ) : List (Option ℚ) → List (Option ℚ)
  | [] => []
  | none :: xs => none :: ewmOptFrom a prev xs
  | some x :: xs =>
      let e := (1 - a) * prev + a * x
      some e :: ewmOptFrom a e xs

/-- `ewm(adjust=False)` over a series with NaN holes: leading NaNs give NaN
and the mean is seeded at the first non-NaN value (the only case the
strategy exercises is a NaN in the first row, from `diff`/`shift`). -/
def ewmOpt (a : ℚ) : List (Option ℚ) → List (Option ℚ)
  | [] => []
  | none :: xs => none :: ewmOpt a xs
  | some x :: xs => some x :: ewmOptFrom a x xs

/-- `rsi(series, period)`: Wilder smoothing of clipped deltas,
`rs = up / down.replace(0, 1e-12)`, output `100 - 100/(1+rs)`. -/
def rsi (series : List ℚ) (period : ℚ) : List (Option ℚ) :=
  let delta := diff series
  let up := ewmOpt (1 / period) (delta.map (fun o => o.map (fun v => max v 0)))
  let down := ewmOpt (1 / period) (delta.map (fun o => o.map (fun v => -(min v 0))))
  List.zipWith
    (fun u d =>
      match u, d with
      | some u, some d =>
          let d := if d = 0 then 1 / 1000000000000 else d
          some (100 - 100 / (1 + u / d))
      | _, _ => none) up down

/-- True-range rows after the first: `max((h-l).abs, (h-pc).abs, (l-pc).abs)`. -/
def trFrom (pc : ℚ) : List Bar → List ℚ
  | [] => []
  | b :: bs =>
      max (abs (b.high - b.low)) (max (abs (b.high - pc)) (abs (b.low - pc))) :: trFrom b.close bs

/-- True range: in the first row `prev_close` is NaN and the pandas
`max(axis=1)` skips NaN columns, leaving `(h-l).abs()`. -/
def trList : List Bar → List ℚ
  | [] => []
  | b :: bs => abs (b.high - b.low) :: trFrom b.close bs

/-- `atr(df, period)`: true range smoothed with `alpha = 1/period`. -/
def atr (df : List Bar) (period : ℚ) : List ℚ := ewm (1 / period) (trList df)

/-- `(+DM, -DM)` rows after the first, from high/low deltas
(`up_move.where(cond, 0.0)`; the `where` replaces failed conditions by 0). -/
def dmFrom (ph pl : ℚ) : List Bar → List (ℚ × ℚ)
  | [] => []
  | b :: bs =>
      let up := b.high - ph
      let dn := pl - b.low
      ((if dn < up ∧ 0 < up then up else 0), (if up < dn ∧ 0 < dn then dn else 0)) ::
        dmFrom b.high b.low bs

/-- Directional-movement rows: NaN comparisons in the first row are False, so
`where` yields 0.0 there. -/
def dmList : List Bar → List (ℚ × ℚ)
  | [] => []
  | b :: bs => (0, 0) :: dmFrom b.high b.low bs

/-- `adx(df, period)`. Divisions by zero produce non-finite floats in pandas;
they are collapsed to `none` here (together with the NaN produced by
`.replace(0, np.nan)`), and the final `.fillna(0.0)` maps them to 0, so the
embedding agrees with the source whenever every division is well defined. -/
def adx (df : List Bar) (period : ℚ) : List ℚ :=
  let dms := dmList df
  let atr_series := ewm (1 / period) (trList df)
  let plus_sm := ewm (1 / period) (dms.map (fun x => x.1))
  let minus_sm := ewm (1 / period) (dms.map (fun x => x.2))
  let dx := List.zipWith
    (fun pm a =>
      if a = 0 then none
      else
        let pdi := 100 * pm.1 / a
        let mdi := 100 * pm.2 / a
        if pdi + mdi = 0 then none else some (abs (pdi - mdi) / (pdi + mdi) * 100))
    (List.zipWith (fun p m => (p, m)) plus_sm minus_sm) atr_series
  (ewmOpt (1 / period) dx).map (fun o => o.getD 0)

/-- `macd(series, 12, 26, 9)` histogram column:
`macd_line - ema(macd_line, 9)` with `macd_line = ema(12) - ema(26)`. -/
def macdHist (series : List ℚ) : List ℚ :=
  let macd_line := List.zipWith (fun a b => a - b) (ema series 12) (ema series 26)
  List.zipWith (fun a b => a - b) macd_line (ema macd_line 9)

/-- `series.rolling(w).mean()`: NaN until `w` rows are available. -/
def rollingMean (w : ℕ) (xs : List ℚ) : List (Option ℚ) :=
  (List.range xs.length).map fun i =>
    if i + 1 < w then none
    else some ((((xs.drop (i + 1 - w)).take w).sum) / (w : ℚ))

/-- `series.rolling(w).max()`: NaN until `w` rows are available. -/
def rollingMax (w : ℕ) (xs : List ℚ) : List (Option ℚ) :=
  (List.range xs.length).map fun i =>
    if i + 1 < w then none
    else ((xs.drop (i + 1 - w)).take w).max?

/-- `df.iloc[-1]` of a numeric column (only used on nonempty series). -/
def lastD (xs : List ℚ) : ℚ := xs.getLastD 0

/-- `df.iloc[-2]` of a numeric column. -/
def prevD (xs : List ℚ) : ℚ := xs.dropLast.getLastD 0

/-- `df.iloc[-1]` of a column that may hold NaN. -/
def lastO {α : Type} (xs : List (Option α)) : Option α := xs.getLastD none

/-- `df["atr_pct"] = (df["atr"]/df["close"]).fillna(0.0)`. Lean's `x/0 = 0`
convention coincides with the `fillna` for the `0/0` row. -/
def atr_pct_series (df : List Bar) : List ℚ :=
  List.zipWith (fun a c => a / c) (atr df 14) (df.map (fun b => b.close))

/-- Volatility gate: `not (atr_min <= last atr_pct <= atr_max)`
(defaults 0.002 and 0.06). -/
def atrGateFails (df : List Bar) (cfg : StratCfg) : Bool :=
  let atr_min := cfg.filters.min_atr_pct.getD 0.002
  let atr_max := cfg.filters.max_atr_pct.getD 0.06
  let lastAtr := lastD (atr_pct_series df)
  !(decide (atr_min ≤ lastAtr) && decide (lastAtr ≤ atr_max))

/-- Average-volume gate: mean of the last `avg_volume_period` volumes below
`min_avg_volume` (defaults 20 and 0). The mean of an empty tail is NaN and a
NaN comparison is False. -/
def avgVolGateFails (df : List Bar) (cfg : StratCfg) : Bool :=
  let period := cfg.filters.avg_volume_period.getD 20
  let minv := cfg.filters.min_avg_volume.getD 0
  let tail := (df.map (fun b => b.volume)).drop (df.length - period)
  match tail with
  | [] => false
  | _ => decide (tail.sum / (tail.length : ℚ) < minv)

/-- Optional ADX gate: active only when both `adx_period` and `min_adx` are
configured and truthy (Python `if adx_period and min_adx:`). -/
def adxGateFails (df : List Bar) (cfg : StratCfg) : Bool :=
  match cfg.filters.adx_period, cfg.filters.min_adx with
  | some p, some m =>
      if p ≠ 0 ∧ m ≠ 0 then decide (lastD (adx df (p : ℚ)) < m) else false
  | _, _ => false

/-- Trend filter: `ema50 > ema200 and ema50 rising and ema200 non-decreasing`
over the last two bars. -/
def trend_up (df : List Bar) : Bool :=
  let closes := df.map (fun b => b.close)
  let e50 := ema closes 50
  let e200 := ema closes 200
  decide (lastD e200 < lastD e50) && decide (prevD e50 < lastD e50) &&
    decide (prevD e200 ≤ lastD e200)

/-- Momentum confirm: MACD histogram flips from `<= 0` to `> 0` on the last bar. -/
def macd_flip_up (df : List Bar) : Bool :=
  let hist := macdHist (df.map (fun b => b.close))
  decide (prevD hist ≤ 0) && decide (0 < lastD hist)

/-- RSI band: `50 <= rsi <= 70` on the last bar (False on NaN). -/
def rsi_ok (df : List Bar) : Bool :=
  match lastO (rsi (df.map (fun b => b.close)) 14) with
  | some r => decide (50 ≤ r) && decide (r ≤ 70)
  | none => false

/-- Volume confirmation: `notna(vol_ma) and volume > vol_ma * 1.2` on the last
bar, with `vol_ma` the 20-bar rolling mean volume. -/
def vol_ok (df : List Bar) : Bool :=
  match lastO (rollingMean 20 (df.map (fun b => b.volume))) with
  | some m => decide (m * 1.2 < lastD (df.map (fun b => b.volume)))
  | none => false

/-- Breakout: close above the 20-bar rolling high with a 0.1% buffer
(False when the rolling high is NaN). -/
def breakout (df : List Bar) : Bool :=
  match lastO (rollingMax 20 (df.map (fun b => b.high))) with
  | some hh => decide (hh * 1.001 < lastD (df.map (fun b => b.close)))
  | none => false

/-- Score assembly: weighted sum of the five flags, stretch penalty above 2%
distance from ema20, clamped to `[0, 1.5]`. -/
def scoreOf (df : List Bar) : ℚ :=
  let raw := (if trend_up df then 0.6 else 0) + (if macd_flip_up df then 0.5 else 0) +
    (if rsi_ok df then 0.2 else 0) + (if breakout df then 0.4 else 0) +
    (if vol_ok df then 0.2 else 0)
  let closes := df.map (fun b => b.close)
  let stretch := (lastD closes - lastD (ema closes 20)) / lastD closes
  let raw := if 0.02 < stretch then raw - min 0.3 (stretch * 5) else raw
  max 0 (min 1.5 raw)

/-- `generate_signal(df, cfg)` from `ai_combo_strategy.py`: warmup check, the
three terminal gates, the volume-confirmation gate, then the BUY decision
with the trend/momentum/score HOLD reasons. -/
def generate_signal (df : List Bar) (cfg : StratCfg) : Signal :=
  if df.length < 60 then { signal := "HOLD", score := 0, failed := some "warmup" }
  else if atrGateFails df cfg then { signal := "HOLD", score := 0, failed := some "atr_range" }
  else if avgVolGateFails df cfg then { signal := "HOLD", score := 0, failed := some "avg_volume" }
  else if adxGateFails df cfg then { signal := "HOLD", score := 0, failed := some "adx" }
  else if !vol_ok df then { signal := "HOLD", score := 0, failed := some "volume" }
  else
    let score := scoreOf df
    let min_score := cfg.buy_score_threshold.getD 1.5
    if trend_up df && (macd_flip_up df || breakout df) && decide (min_score ≤ score) then
      let atr_mult := cfg.atr_stop_multiplier.getD 1.5
      let rr := cfg.rr_ratio.getD 2
      let sl := max 0.001 (min 0.05 (lastD (atr_pct_series df) * atr_mult))
      { signal := "BUY", score := score, sl_pct := some sl, tp_pct := some (sl * rr) }
    else
      let reason :=
        if !trend_up df then some "trend"
        else if !(macd_flip_up df || breakout df) then some "momentum"
        else if score < min_score then some "score"
        else none
      { signal := "HOLD", score := score, failed := reason }

end Strategy

section Fixtures

open PaperBroker Strategy

/-- Wallet-1000 config with the full balance tradable and staked per trade
(the §8 end-to-end scenario: `tradable_ratio = 1`, `stake_ratio = 1`). -/
def cfgW : Config := { tradable_ratio := 1, stake_ratio := 1 }

/-- Config of `tests/test_expectancy.py`: 10% stake, no cooldown, high
daily trade cap — used to run repeated round trips on one symbol. -/
def cfgR : Config :=
  { tradable_ratio := 1, stake_ratio := 0.1, cooldown_minutes := 0, max_trades_day := 100 }

/-- Config with a per-symbol loss limit of −10 and a 20% stake. -/
def cfgL : Config :=
  { tradable_ratio := 1, stake_ratio := 0.2, symbol_loss_limit := some (-10) }

/-- Fresh ledger: wallet 1000, nothing open, both day tags "d". -/
def stW : BrokerState :=
  { balance := 1000, positions := [], cooldowns := [], symbol_pnl := [],
    daily_trades := 0, trade_day := "d", daily_pnl := 0, pnl_day := "d",
    runtime_whitelist := [] }

/-- A live TEST position bought at 5 (trailing not yet active). -/
def posX : Position :=
  { qty := 50, entry := 5, peak := 5, stop := 4.9, tp_price := 5.1,
    activate_profit_pct := 0, breakeven_trigger_pct := 0.003,
    trailing_stop_pct := 0.012, atr_trail_multiplier := 1,
    atr_pct := some 0.01, trail_active := false }

/-- The same position with the trailing logic already active. -/
def posT : Position := { posX with trail_active := true }

/-- Ledger holding the open TEST position `posX`. -/
def stP : BrokerState := { stW with positions := [("TEST", posX)] }

/-- Ledger holding the trail-active TEST position `posT`. -/
def stT : BrokerState := { stW with positions := [("TEST", posT)] }

/-- Ledger whose TEST cooldown timestamp is one second in the past. -/
def stCD : BrokerState := { stW with cooldowns := [("TEST", 999999)] }

/-- Ledger with a cumulative AAA PnL of −9 (90% of the −10 loss limit). -/
def stL : BrokerState := { stW with symbol_pnl := [("AAA", -9)] }

/-- Buy meta requesting a 0.75% stop — half the configured 1.5% base. -/
def metaT : Meta := { stop_loss_pct := some 0.0075 }

/-- One AAA round trip of `tests/test_expectancy.py`: buy at 10, sell at 11. -/
def roundTripAAA (s : BrokerState) : BrokerState :=
  (sell cfgR 0 (buy cfgR 0 "d" s "AAA" 10 {}).2 "AAA" 11).2

/-- A price path for trailing-stop updates on the TEST position. -/
def pricesT : List ℚ := [5.5, 6, 5.8]

/-- 60 identical bars: close 100, high 101, low 99, volume 100. ATR% is 2%
(inside the volatility band), the trend filter fails (ema50 = ema200) and the
volume confirmation fails (volume = its rolling mean). -/
def cdf : List Bar := List.replicate 60 ⟨101, 99, 100, 100⟩

/-- The same series with a 10× volume spike on the last bar, so the volume
confirmation passes while the trend filter still fails. -/
def wdf : List Bar := List.replicate 59 ⟨101, 99, 100, 100⟩ ++ [⟨101, 99, 100, 1000⟩]

/-- Default strategy config (no filters configured, threshold 1.5). -/
def ccfg : StratCfg := {}

end Fixtures

section BrokerLemmas

namespace PaperBroker

theorem rollover_pres (today : String) (s : BrokerState) :
    (rolloverPnl today (rolloverTrade today s)).balance = s.balance ∧
    (rolloverPnl today (rolloverTrade today s)).positions = s.positions ∧
    (rolloverPnl today (rolloverTrade today s)).cooldowns = s.cooldowns ∧
    (rolloverPnl today (rolloverTrade today s)).symbol_pnl = s.symbol_pnl ∧
    (rolloverPnl today (rolloverTrade today s)).runtime_whitelist = s.runtime_whitelist := by
  unfold rolloverPnl rolloverTrade
  split <;> split <;> exact ⟨rfl, rfl, rfl, rfl, rfl⟩

theorem stake_amount_rollover (cfg : Config) (today : String) (s : BrokerState)
    (o : Option String) :
    stake_amount cfg (rolloverPnl today (rolloverTrade today s)) o = stake_amount cfg s o := by
  unfold rolloverPnl rolloverTrade
  split <;> split <;> rfl

theorem alookup_upsert_self {α : Type} (k : String) (v : α) (l : List (String × α)) :
    alookup k (upsert k v l) = some v := by
  induction l with
  | nil => simp [upsert, alookup]
  | cons hd t ih =>
      rcases hd with ⟨k', v'⟩
      by_cases hk : k' = k
      · subst hk; simp [upsert, alookup]
      · simp [upsert, alookup, hk, ih]

theorem alookup_eraseKey_self {α : Type} (k : String) (l : List (String × α)) :
    alookup k (eraseKey k l) = none := by
  induction l with
  | nil => rfl
  | cons hd t ih =>
      rcases hd with ⟨k', v'⟩
      by_cases hk : k' = k
      · subst hk; simp [eraseKey, ih]
      · simp [eraseKey, alookup, hk, ih]

theorem upsert_length_of_mem {α : Type} (k : String) (v v0 : α) (l : List (String × α))
    (h : alookup k l = some v0) : (upsert k v l).length = l.length := by
  induction l with
  | nil => simp [alookup] at h
  | cons hd t ih =>
      rcases hd with ⟨k', v'⟩
      by_cases hk : k' = k
      · subst hk; simp [upsert]
      · simp [alookup, hk] at h
        simp [upsert, hk, ih h]

theorem buyOpen_some_spec (cfg : Config) (s : BrokerState) (symbol : String) (price : ℚ)
    (meta : Meta) (stake0 : ℚ) (p : Option BuyResult × BrokerState)
    (hp : buyOpen cfg s symbol price meta stake0 = p) (r : BuyResult) (hr : p.1 = some r) :
    0 < stake0 ∧
    r.symbol = symbol ∧
    r.price = price * (1 + cfg.slippage_pct + cfg.fee_pct) ∧
    p.2.balance = s.balance - finalStake cfg meta stake0 ∧
    p.2.cooldowns = s.cooldowns ∧
    p.2.symbol_pnl = s.symbol_pnl ∧
    ∃ pos : Position, p.2.positions = upsert symbol pos s.positions ∧
      pos.qty = r.qty ∧ pos.entry = r.price ∧ pos.trail_active = false := by
  unfold buyOpen at hp
  split at hp
  · subst hp; simp at hr
  · subst hp
    rename_i hstake
    dsimp only at hr ⊢
    obtain rfl := (Option.some.inj hr).symm
    exact ⟨not_le.mp hstake, rfl, rfl, rfl, rfl, rfl, _, rfl, rfl, rfl, rfl⟩

theorem can_open_pres (cfg : Config) (today : String) (s : BrokerState) :
    (can_open cfg today s).2.balance = s.balance ∧
    (can_open cfg today s).2.positions = s.positions ∧
    (can_open cfg today s).2.cooldowns = s.cooldowns ∧
    (can_open cfg today s).2.symbol_pnl = s.symbol_pnl ∧
    (can_open cfg today s).2.runtime_whitelist = s.runtime_whitelist := rollover_pres today s

theorem stake_amount_can_open (cfg : Config) (today : String) (s : BrokerState)
    (o : Option String) :
    stake_amount cfg (can_open cfg today s).2 o = stake_amount cfg s o :=
  stake_amount_rollover cfg today s o

theorem buy_some_spec (cfg : Config) (now : ℚ) (today : String) (s : BrokerState)
    (symbol : String) (price : ℚ) (meta : Meta) (p : Option BuyResult × BrokerState)
    (hp : buy cfg now today s symbol price meta = p) (r : BuyResult) (hr : p.1 = some r) :
    ∃ stake1,
      buyOpen cfg (can_open cfg today s).2 symbol price meta stake1 = p ∧
      (stake1 = stake_amount cfg (can_open cfg today s).2 (some symbol) ∨
        stake1 = stake_amount cfg (can_open cfg today s).2 (some symbol) * 0.5) := by
  unfold buy at hp
  dsimp only at hp
  split at hp
  · subst hp; simp at hr
  · split at hp
    · split at hp
      · subst hp; simp at hr
      · split at hp
        · exact ⟨_, hp, Or.inr rfl⟩
        · exact ⟨_, hp, Or.inl rfl⟩
    · exact ⟨_, hp, Or.inl rfl⟩

theorem stake_amount_le_balance (cfg : Config) (s : BrokerState) (o : Option String) :
    stake_amount cfg s o ≤ s.balance := by
  unfold stake_amount
  dsimp only
  exact min_le_right _ _

theorem finalStake_le (cfg : Config) (meta : Meta) (stake0 : ℚ)
    (h0 : 0 < stake0) (hbase : 0 < cfg.stop_loss_pct)
    (hreq : cfg.stop_loss_pct ≤ meta.stop_loss_pct.getD cfg.stop_loss_pct) :
    finalStake cfg meta stake0 ≤ stake0 := by
  unfold finalStake
  dsimp only
  rw [if_pos (lt_of_lt_of_le hbase hreq)]
  apply mul_le_of_le_one_right (le_of_lt h0)
  rw [div_le_one (lt_of_lt_of_le hbase hreq)]
  exact hreq

theorem buyOpen_pres (cfg : Config) (s : BrokerState) (symbol : String) (price : ℚ)
    (meta : Meta) (stake0 : ℚ) (p : Option BuyResult × BrokerState)
    (hp : buyOpen cfg s symbol price meta stake0 = p) (hnone : p.1 = none) : p.2 = s := by
  unfold buyOpen at hp
  split at hp
  · subst hp; rfl
  · subst hp; simp at hnone

theorem buy_none_pres (cfg : Config) (now : ℚ) (today : String) (s : BrokerState)
    (symbol : String) (price : ℚ) (meta : Meta)
    (h : (buy cfg now today s symbol price meta).1 = none) :
    (buy cfg now today s symbol price meta).2.balance = s.balance ∧
      (buy cfg now today s symbol price meta).2.positions = s.positions := by
  have hpres := rollover_pres today s
  suffices H : ∀ p : Option BuyResult × BrokerState,
      buy cfg now today s symbol price meta = p → p.1 = none →
      p.2.balance = s.balance ∧ p.2.positions = s.positions from H _ rfl h
  intro p hp hnone
  unfold buy at hp
  dsimp only at hp
  split at hp
  · subst hp; exact ⟨hpres.1, hpres.2.1⟩
  · split at hp
    · split at hp
      · subst hp; exact ⟨hpres.1, hpres.2.1⟩
      · rw [buyOpen_pres _ _ _ _ _ _ _ hp hnone]; exact ⟨hpres.1, hpres.2.1⟩
    · rw [buyOpen_pres _ _ _ _ _ _ _ hp hnone]; exact ⟨hpres.1, hpres.2.1⟩

theorem buy_overwrite_spec (cfg : Config) (now : ℚ) (today : String) (s : BrokerState)
    (symbol : String) (price : ℚ) (meta : Meta) (pos0 : Position) (r : BuyResult)
    (hpos : alookup symbol s.positions = some pos0)
    (hr : (buy cfg now today s symbol price meta).1 = some r) :
    ∃ p' : Position,
      alookup symbol (buy cfg now today s symbol price meta).2.positions = some p' ∧
      p'.entry = price * (1 + cfg.slippage_pct + cfg.fee_pct) ∧
      p'.trail_active = false ∧
      (buy cfg now today s symbol price meta).2.positions.length = s.positions.length := by
  obtain ⟨stake1, hb, _⟩ := buy_some_spec cfg now today s symbol price meta _ rfl r hr
  obtain ⟨_, _, hradj, _, _, _, pos, hposeq, hqty, hentry, hact⟩ :=
    buyOpen_some_spec cfg _ symbol price meta stake1 _ hb r hr
  have hs1 : (can_open cfg today s).2.positions = s.positions := (can_open_pres cfg today s).2.1
  rw [hs1] at hposeq
  refine ⟨pos, ?_, ?_, hact, ?_⟩
  · rw [hposeq]; exact alookup_upsert_self symbol pos s.positions
  · rw [hentry, hradj]
  · rw [hposeq]; exact upsert_length_of_mem symbol pos pos0 s.positions hpos

theorem buy_balance_nonneg_spec (cfg : Config) (now : ℚ) (today : String) (s : BrokerState)
    (symbol : String) (price : ℚ) (meta : Meta)
    (hbal : 0 ≤ s.balance) (hbase : 0 < cfg.stop_loss_pct)
    (hreq : cfg.stop_loss_pct ≤ meta.stop_loss_pct.getD cfg.stop_loss_pct) :
    0 ≤ (buy cfg now today s symbol price meta).2.balance := by
  cases hres : (buy cfg now today s symbol price meta).1 with
  | none =>
      rw [(buy_none_pres cfg now today s symbol price meta hres).1]; exact hbal
  | some r =>
      obtain ⟨stake1, hb, hdisj⟩ := buy_some_spec cfg now today s symbol price meta _ rfl r hres
      obtain ⟨hst, _, _, hbal2, _, _, _, _, _, _, _⟩ :=
        buyOpen_some_spec cfg _ symbol price meta stake1 _ hb r hres
      rw [hbal2, (can_open_pres cfg today s).1]
      have hSA : stake_amount cfg (can_open cfg today s).2 (some symbol) ≤ s.balance := by
        rw [stake_amount_can_open]
        exact stake_amount_le_balance cfg s (some symbol)
      have hstake1 : stake1 ≤ s.balance := by
        rcases hdisj with h1 | h1
        · rw [h1]; exact hSA
        · rw [h1]
          have hSApos : 0 < stake_amount cfg (can_open cfg today s).2 (some symbol) := by
            nlinarith [hst, h1]
          nlinarith [hSA]
      have hfs : finalStake cfg meta stake1 ≤ stake1 := finalStake_le cfg meta stake1 hst hbase hreq
      linarith

theorem buy_near_limit_halved_spec (cfg : Config) (now : ℚ) (today : String) (s : BrokerState)
    (symbol : String) (price : ℚ) (meta : Meta) (L : ℚ) (r : BuyResult)
    (hL : cfg.symbol_loss_limit = some L)
    (hneg : (alookup symbol s.symbol_pnl).getD 0 < 0)
    (h80 : 0.8 * abs L ≤ abs ((alookup symbol s.symbol_pnl).getD 0))
    (hr : (buy cfg now today s symbol price meta).1 = some r) :
    (buy cfg now today s symbol price meta).2.balance =
      s.balance - finalStake cfg meta (stake_amount cfg s (some symbol) * 0.5) := by
  suffices H : ∀ p : Option BuyResult × BrokerState,
      buy cfg now today s symbol price meta = p → p.1 = some r →
      p.2.balance = s.balance - finalStake cfg meta (stake_amount cfg s (some symbol) * 0.5) from
    H _ rfl hr
  intro p hp hrr
  unfold buy at hp
  dsimp only at hp
  split at hp
  · subst hp; simp at hrr
  · split at hp
    case isFalse.h_1 l heq =>
      obtain rfl : L = l := Option.some.inj (hL.symm.trans heq)
      rw [(can_open_pres cfg today s).2.2.2.1] at hp
      split at hp
      · subst hp; simp at hrr
      · rw [if_pos ⟨hneg, h80⟩, stake_amount_can_open] at hp
        obtain ⟨_, _, _, hbal2, _, _, _, _, _, _, _⟩ :=
          buyOpen_some_spec cfg _ symbol price meta _ _ hp r hrr
        rw [hbal2, (can_open_pres cfg today s).1]
    case isFalse.h_2 heq =>
      rw [hL] at heq; exact absurd heq (by simp)

theorem trailCore_peak (p : Position) (price : ℚ) : (trailCore p price).peak = p.peak := by
  unfold trailCore
  dsimp only
  split <;> split <;> rfl

theorem trailCore_stop (p : Position) (price : ℚ) : p.stop ≤ (trailCore p price).stop := by
  unfold trailCore
  dsimp only
  split
  · split
    · exact le_trans (le_max_left _ _) (le_of_lt (by assumption))
    · exact le_max_left _ _
  · split
    · exact le_of_lt (by assumption)
    · exact le_refl _

theorem trailCore_breakeven (p : Position) (price : ℚ)
    (h : p.entry * (1 + p.breakeven_trigger_pct) ≤ price) :
    p.entry ≤ (trailCore p price).stop := by
  unfold trailCore
  dsimp only
  rw [if_pos h]
  split
  · exact le_trans (le_max_right _ _) (le_of_lt (by assumption))
  · exact le_max_right _ _

theorem peakStep_peak_le (pos : Position) (price : ℚ) :
    pos.peak ≤ (peakStep pos price).peak := le_max_left _ _

theorem trailStep_peak_le (pos : Position) (price : ℚ) :
    pos.peak ≤ (trailStep pos price).peak := by
  unfold trailStep
  dsimp only
  split
  · rw [trailCore_peak]; exact peakStep_peak_le pos price
  · split
    · rw [trailCore_peak]
      exact peakStep_peak_le pos price
    · exact peakStep_peak_le pos price

theorem trailStep_stop_le (pos : Position) (price : ℚ) :
    pos.stop ≤ (trailStep pos price).stop := by
  unfold trailStep
  dsimp only
  split
  · exact trailCore_stop (peakStep pos price) price
  · split
    · exact trailCore_stop { peakStep pos price with trail_active := true } price
    · exact le_refl _

theorem trailStep_breakeven (pos : Position) (price : ℚ)
    (hact : pos.trail_active = true)
    (h : pos.entry * (1 + pos.breakeven_trigger_pct) ≤ price) :
    pos.entry ≤ (trailStep pos price).stop := by
  unfold trailStep
  dsimp only
  rw [if_pos (show (peakStep pos price).trail_active = true from hact)]
  exact trailCore_breakeven (peakStep pos price) price h

theorem foldl_trailStep_mono (pos : Position) (prices : List ℚ) :
    pos.peak ≤ (prices.foldl trailStep pos).peak ∧
      pos.stop ≤ (prices.foldl trailStep pos).stop := by
  induction prices generalizing pos with
  | nil => exact ⟨le_refl _, le_refl _⟩
  | cons q t ih =>
      simp only [List.foldl_cons]
      exact ⟨le_trans (trailStep_peak_le pos q) (ih (trailStep pos q)).1,
             le_trans (trailStep_stop_le pos q) (ih (trailStep pos q)).2⟩

theorem foldl_update_trailing (symbol : String) (s : BrokerState) (pos : Position)
    (prices : List ℚ) (h : alookup symbol s.positions = some pos) :
    alookup symbol
        ((prices.foldl (fun st q => update_trailing st symbol q) s).positions) =
      some (prices.foldl trailStep pos) := by
  induction prices generalizing s pos with
  | nil => exact h
  | cons q t ih =>
      simp only [List.foldl_cons]
      apply ih
      unfold update_trailing
      rw [h]
      exact alookup_upsert_self symbol (trailStep pos q) s.positions

theorem round_trip_spec (cfg : Config) (now now2 : ℚ) (today : String) (s : BrokerState)
    (symbol : String) (p1 p2 : ℚ) (meta : Meta) (r : BuyResult) (r2 : SellResult)
    (s1 s2 : BrokerState)
    (hb : buy cfg now today s symbol p1 meta = (some r, s1))
    (hs : sell cfg now2 s1 symbol p2 = (some r2, s2)) :
    s2.balance = s.balance - (s.balance - s1.balance) +
        r.qty * (p2 * (1 - cfg.slippage_pct - cfg.fee_pct)) ∧
      alookup symbol s2.positions = none := by
  obtain ⟨stake1, hbo, _⟩ := buy_some_spec cfg now today s symbol p1 meta _ hb r rfl
  obtain ⟨hst, hsym, hradj, hbal1, hcd, hpnl, pos, hposeq, hqty, hentry, hact⟩ :=
    buyOpen_some_spec cfg _ symbol p1 meta stake1 _ hbo r rfl
  have hlook : alookup symbol s1.positions = some pos := by
    have : s1.positions = upsert symbol pos (can_open cfg today s).2.positions := hposeq
    rw [this]
    exact alookup_upsert_self symbol pos (can_open cfg today s).2.positions
  unfold sell at hs
  rw [hlook] at hs
  dsimp only at hs
  rw [Prod.ext_iff] at hs
  obtain ⟨hs1, hs2⟩ := hs
  dsimp only at hs1 hs2
  subst hs2
  constructor
  · rw [sub_sub_cancel, hqty]
  · exact alookup_eraseKey_self symbol s1.positions

end PaperBroker

end BrokerLemmas

section Claims

open PaperBroker Strategy

set_option maxRecDepth 40000 in
unseal Rat.mul Rat.add Rat.sub Rat.inv Rat.ofScientific in
/-- C1: the spec describes `symbol_pnl` as a bounded rolling window of
realized PnL values (fixed capacity N, FIFO eviction), which is what
`tests/test_expectancy.py` asserts. In `trade_executor.py` the ledger instead
keeps one cumulative float per symbol: after three AAA round trips (buy at
10, sell at 11, config of the test) the stored entry is the single rational
`10 + 15.15 + 15.37725`, the running sum of all three realized PnLs, and no
window, capacity or eviction exists (the module defines no
`EXPECTANCY_WINDOW`). -/
theorem C1_symbol_pnl_is_cumulative_sum :
    alookup "AAA" (roundTripAAA (roundTripAAA (roundTripAAA stW))).symbol_pnl =
      some (10 + 15.15 + 15.37725) ∧
    (roundTripAAA (roundTripAAA (roundTripAAA stW))).symbol_pnl.length = 1 := by decide

set_option maxRecDepth 40000 in
unseal Rat.mul Rat.add Rat.sub Rat.inv Rat.ofScientific in
/-- C2 counterexample: with an open TEST position (entry 5) the broker still
admits `buy("TEST", 10)`: the result is non-null and the stored Position is
replaced, contradicting "a call to buy for that same symbol is never
admitted: it returns a null result and the existing Position is left
unchanged". -/
theorem C2_counterexample :
    alookup "TEST" stP.positions = some posX ∧
    (buy cfgW 1000000 "d" stP "TEST" 10 {}).1 ≠ none ∧
    alookup "TEST" (buy cfgW 1000000 "d" stP "TEST" 10 {}).2.positions ≠ some posX := by
  decide

/-- C2 (amended): `buy` never checks whether a Position for the symbol
already exists (that guard lives in the orchestration loop, `main.py`:
`if sym in broker.positions: continue`). Whenever a buy for a symbol with an
open Position is admitted, it overwrites that Position in place — the stored
entry price becomes the new slippage/fee-adjusted price, the trailing flag
resets, and the positions map keeps exactly as many entries as before, so at
most one Position per symbol still exists. -/
theorem C2_buy_admitted_overwrites_position (cfg : Config) (now : ℚ) (today : String)
    (s : BrokerState) (symbol : String) (price : ℚ) (meta : Meta) (pos0 : Position)
    (r : BuyResult)
    (hpos : alookup symbol s.positions = some pos0)
    (hr : (buy cfg now today s symbol price meta).1 = some r) :
    Option.map Position.entry
        (alookup symbol (buy cfg now today s symbol price meta).2.positions) =
      some (price * (1 + cfg.slippage_pct + cfg.fee_pct)) ∧
    Option.map Position.trail_active
        (alookup symbol (buy cfg now today s symbol price meta).2.positions) = some false ∧
    (buy cfg now today s symbol price meta).2.positions.length = s.positions.length := by
  obtain ⟨p', h1, h2, h3, h4⟩ :=
    buy_overwrite_spec cfg now today s symbol price meta pos0 r hpos hr
  rw [h1]
  refine ⟨?_, ?_, h4⟩
  · rw [show Option.map Position.entry (some p') = some p'.entry from rfl, h2]
  · rw [show Option.map Position.trail_active (some p') = some p'.trail_active from rfl, h3]

set_option maxRecDepth 40000 in
unseal Rat.mul Rat.add Rat.sub Rat.inv Rat.ofScientific in
/-- C2 witness: the amended statement at the concrete overwrite from the
counterexample (buy TEST at 10 over the open entry-5 position). -/
theorem C2_witness :
    Option.map Position.entry
        (alookup "TEST" (buy cfgW 1000000 "d" stP "TEST" 10 ({} : Meta)).2.positions) =
      some (10 * (1 + cfgW.slippage_pct + cfgW.fee_pct)) ∧
    Option.map Position.trail_active
        (alookup "TEST" (buy cfgW 1000000 "d" stP "TEST" 10 ({} : Meta)).2.positions) =
      some false ∧
    (buy cfgW 1000000 "d" stP "TEST" 10 ({} : Meta)).2.positions.length =
      stP.positions.length :=
  C2_buy_admitted_overwrites_position cfgW 1000000 "d" stP "TEST" 10 {} posX
    ⟨"TEST", 100, 10⟩ (by decide) (by decide)

set_option maxRecDepth 40000 in
unseal Rat.mul Rat.add Rat.sub Rat.inv Rat.ofScientific in
/-- C3 counterexample: wallet 1000, full stake, base stop-loss 1.5%, meta
stop-loss 0.75%. The balance cap in `stake_amount` runs before the `stake *=
base_sl / sl_pct` rescale in `buy`, so the admitted buy deducts 2000 and
drives the balance to −1000 — the claim "final stake capped at the broker's
current balance, so the balance is never driven below zero" fails. -/
theorem C3_counterexample :
    (buy cfgW 1000000 "d" stW "TEST" 10 metaT).1 ≠ none ∧
    (buy cfgW 1000000 "d" stW "TEST" 10 metaT).2.balance < 0 := by decide

/-- C3 (amended): the balance cap is applied inside `stake_amount`, before
the loss-limit halving and the stop-loss rescale. Whenever the requested
stop-loss percentage is at least the configured base (in particular whenever
the meta supplies none), the rescale factor is ≤ 1, the final stake stays
within the balance, and a buy never drives a non-negative balance below
zero; only a meta stop-loss tighter than the base can overshoot the cap. -/
theorem C3_balance_nonneg_without_tighter_stop (cfg : Config) (now : ℚ) (today : String)
    (s : BrokerState) (symbol : String) (price : ℚ) (meta : Meta)
    (hbal : 0 ≤ s.balance) (hbase : 0 < cfg.stop_loss_pct)
    (hreq : cfg.stop_loss_pct ≤ meta.stop_loss_pct.getD cfg.stop_loss_pct) :
    0 ≤ (buy cfg now today s symbol price meta).2.balance :=
  buy_balance_nonneg_spec cfg now today s symbol price meta hbal hbase hreq

set_option maxRecDepth 40000 in
unseal Rat.mul Rat.add Rat.sub Rat.inv Rat.ofScientific in
/-- C3 witness: the amended statement at the §8 scenario (buy TEST at 10 with
empty meta): the balance stays non-negative. -/
theorem C3_witness : 0 ≤ (buy cfgW 1000000 "d" stW "TEST" 10 ({} : Meta)).2.balance :=
  C3_balance_nonneg_without_tighter_stop cfgW 1000000 "d" stW "TEST" 10 {}
    (by decide) (by decide) (by decide)

/-- C4: the spec (and `tests/test_core_trade_executor.py`,
`test_stake_reduces_after_loss`, which references an undefined
`NEG_PNL_MULT`) says a broker with negative recorded daily PnL produces a
strictly smaller `stake_amount()`. The code's `stake_amount` never reads
`daily_pnl`: two brokers identical except for the daily PnL produce exactly
the same stake, whatever the symbol argument. -/
theorem C4_stake_amount_ignores_daily_pnl (cfg : Config) (s : BrokerState) (q : ℚ)
    (symbol : Option String) :
    stake_amount cfg { s with daily_pnl := q } symbol = stake_amount cfg s symbol := by
  cases s; rfl

set_option maxRecDepth 40000 in
unseal Rat.mul Rat.add Rat.sub Rat.inv Rat.ofScientific in
/-- C5 counterexample: 60 constant bars (close 100, high 101, low 99, volume
100) under the default config pass the volatility gate (ATR% = 2%), the
volume-floor gate and the (unconfigured) ADX gate, and fail the trend filter
— yet `generate_signal` returns HOLD with reason "volume", not "trend",
because the volume-confirmation check runs before the trend reason is ever
assigned. -/
theorem C5_counterexample :
    60 ≤ cdf.length ∧ atrGateFails cdf ccfg = false ∧ avgVolGateFails cdf ccfg = false ∧
    adxGateFails cdf ccfg = false ∧ trend_up cdf = false ∧
    generate_signal cdf ccfg = { signal := "HOLD", score := 0, failed := some "volume" } := by
  decide

/-- C5 (amended): the trend filter is not a terminal gate at stage 5. The
terminal gates run in the order warmup, atr_range, avg_volume, adx, volume;
only then is the decision taken, with HOLD reasons checked in the order
trend, momentum, score. So a series passing the volatility, volume-floor and
ADX gates and failing the trend filter yields HOLD("trend") provided the
volume confirmation passes; when the volume confirmation also fails the
result is HOLD("volume") instead. -/
theorem C5_trend_reason_when_volume_confirms (df : List Bar) (cfg : StratCfg)
    (hlen : ¬ df.length < 60)
    (h1 : atrGateFails df cfg = false)
    (h2 : avgVolGateFails df cfg = false)
    (h3 : adxGateFails df cfg = false)
    (h4 : vol_ok df = true)
    (h5 : trend_up df = false) :
    generate_signal df cfg =
      { signal := "HOLD", score := scoreOf df, failed := some "trend" } := by
  unfold generate_signal
  simp only [h1, h2, h3, h4, h5, if_neg hlen, Bool.false_eq_true, if_false, Bool.not_true,
    Bool.not_false, if_true, Bool.false_and, Bool.and_self]

set_option maxRecDepth 40000 in
unseal Rat.mul Rat.add Rat.sub Rat.inv Rat.ofScientific in
/-- C5 witness: the constant series with a 10× volume spike on the last bar
passes every gate up to and including the volume confirmation, fails the
trend filter, and yields HOLD("trend"). -/
theorem C5_witness :
    generate_signal wdf ccfg =
      { signal := "HOLD", score := scoreOf wdf, failed := some "trend" } :=
  C5_trend_reason_when_volume_confirms wdf ccfg (by decide) (by decide) (by decide)
    (by decide) (by decide) (by decide)

/-- C6: over any sequence of `update_trailing` calls the tracked Position's
peak and stop are monotonically non-decreasing (the peak only ratchets up
with new highs, the stop via `stop = max(stop, trail_stop)` and the
breakeven `max(stop, entry)`), and one active-step with price at or above
the breakeven trigger leaves the stop at or above entry. -/
theorem C6_trailing_stop_peak_monotone (s : BrokerState) (symbol : String)
    (pos : Position) (prices : List ℚ)
    (h : alookup symbol s.positions = some pos) :
    alookup symbol
        ((prices.foldl (fun st q => update_trailing st symbol q) s).positions) =
      some (prices.foldl trailStep pos) ∧
    pos.peak ≤ (prices.foldl trailStep pos).peak ∧
    pos.stop ≤ (prices.foldl trailStep pos).stop ∧
    ∀ price : ℚ, pos.trail_active = true →
      pos.entry * (1 + pos.breakeven_trigger_pct) ≤ price →
      pos.entry ≤ (trailStep pos price).stop :=
  ⟨foldl_update_trailing symbol s pos prices h,
   (foldl_trailStep_mono pos prices).1, (foldl_trailStep_mono pos prices).2,
   fun price hact hbe => trailStep_breakeven pos price hact hbe⟩

set_option maxRecDepth 40000 in
unseal Rat.mul Rat.add Rat.sub Rat.inv Rat.ofScientific in
/-- C6 witness: the monotonicity statement run over the price path
`[5.5, 6, 5.8]` on the trail-active entry-5 TEST position, and the breakeven
conclusion at price 7. -/
theorem C6_witness :
    alookup "TEST"
        ((pricesT.foldl (fun st q => update_trailing st "TEST" q) stT).positions) =
      some (pricesT.foldl trailStep posT) ∧
    posT.peak ≤ (pricesT.foldl trailStep posT).peak ∧
    posT.stop ≤ (pricesT.foldl trailStep posT).stop ∧
    posT.entry ≤ (trailStep posT 7).stop := by
  obtain ⟨h1, h2, h3, h4⟩ :=
    C6_trailing_stop_peak_monotone stT "TEST" posT pricesT (by decide)
  exact ⟨h1, h2, h3, h4 7 (by decide) (by decide)⟩

set_option maxRecDepth 40000 in
unseal Rat.mul Rat.add Rat.sub Rat.inv Rat.ofScientific in
/-- C7: a buy at `p1` followed by a sell at `p2` leaves
`balance = initial − stake + qty·p2_effective` and removes the symbol from
the positions map; concretely, with wallet 1000, `tradable_ratio = 1`,
`stake_ratio = 1` and zero fee/slippage, buy TEST at 10 stakes 1000 for 100
units leaving balance 0, and sell TEST at 12 realizes PnL 200 and balance
1200. -/
theorem C7_round_trip_balance :
    (∀ (cfg : Config) (now now2 : ℚ) (today : String) (s : BrokerState) (symbol : String)
        (p1 p2 : ℚ) (meta : Meta) (r : BuyResult) (r2 : SellResult) (s1 s2 : BrokerState),
        buy cfg now today s symbol p1 meta = (some r, s1) →
        sell cfg now2 s1 symbol p2 = (some r2, s2) →
        s2.balance = s.balance - (s.balance - s1.balance) +
            r.qty * (p2 * (1 - cfg.slippage_pct - cfg.fee_pct)) ∧
          alookup symbol s2.positions = none) ∧
    ((buy cfgW 1000000 "d" stW "TEST" 10 {}).1 = some ⟨"TEST", 100, 10⟩ ∧
     (buy cfgW 1000000 "d" stW "TEST" 10 {}).2.balance = 0 ∧
     (sell cfgW 2000 (buy cfgW 1000000 "d" stW "TEST" 10 {}).2 "TEST" 12).1 =
        some ⟨"TEST", 100, 12, 200, 1200⟩ ∧
     (sell cfgW 2000 (buy cfgW 1000000 "d" stW "TEST" 10 {}).2 "TEST" 12).2.balance = 1200 ∧
     alookup "TEST"
        (sell cfgW 2000 (buy cfgW 1000000 "d" stW "TEST" 10 {}).2 "TEST" 12).2.positions =
       none) := by
  constructor
  · intro cfg now now2 today s symbol p1 p2 meta r r2 s1 s2 hb hs
    exact round_trip_spec cfg now now2 today s symbol p1 p2 meta r r2 s1 s2 hb hs
  · decide

set_option maxRecDepth 40000 in
unseal Rat.mul Rat.add Rat.sub Rat.inv Rat.ofScientific in
/-- C7 witness: the round-trip equation instantiated at the §8 scenario. -/
theorem C7_witness :
    (sell cfgW 2000 (buy cfgW 1000000 "d" stW "TEST" 10 ({} : Meta)).2 "TEST" 12).2.balance =
        stW.balance - (stW.balance - (buy cfgW 1000000 "d" stW "TEST" 10 ({} : Meta)).2.balance) +
          (100 : ℚ) * (12 * (1 - cfgW.slippage_pct - cfgW.fee_pct)) ∧
      alookup "TEST"
          (sell cfgW 2000 (buy cfgW 1000000 "d" stW "TEST" 10 ({} : Meta)).2 "TEST" 12).2.positions =
        none :=
  C7_round_trip_balance.1 cfgW 1000000 2000 "d" stW "TEST" 10 12 {}
    ⟨"TEST", 100, 10⟩ ⟨"TEST", 100, 12, 200, 1200⟩ _ _
    (by rw [Prod.ext_iff]; exact ⟨by decide, rfl⟩)
    (by rw [Prod.ext_iff]; exact ⟨by decide, rfl⟩)

/-- C8: every buy rejected for a business reason (admission check fails,
cooldown, symbol loss limit breached, or non-positive stake) yields a null
result — the embedding is a total function, no exception path exists — and
leaves the broker's balance and positions mapping unchanged. -/
theorem C8_rejected_buy_leaves_state (cfg : Config) (now : ℚ) (today : String)
    (s : BrokerState) (symbol : String) (price : ℚ) (meta : Meta)
    (h : (buy cfg now today s symbol price meta).1 = none) :
    (buy cfg now today s symbol price meta).2.balance = s.balance ∧
      (buy cfg now today s symbol price meta).2.positions = s.positions :=
  buy_none_pres cfg now today s symbol price meta h

set_option maxRecDepth 40000 in
unseal Rat.mul Rat.add Rat.sub Rat.inv Rat.ofScientific in
/-- C8 witness: a buy rejected by the cooldown (last exit one second ago)
leaves balance and positions untouched. -/
theorem C8_witness :
    (buy cfgW 1000000 "d" stCD "TEST" 10 ({} : Meta)).2.balance = stCD.balance ∧
      (buy cfgW 1000000 "d" stCD "TEST" 10 ({} : Meta)).2.positions = stCD.positions :=
  C8_rejected_buy_leaves_state cfgW 1000000 "d" stCD "TEST" 10 {} (by decide)

/-- C9: for a symbol with no open Position, `sell` returns a null result with
the entire ledger state unchanged, and `should_exit` returns
`(False, "no_pos")` without mutating any state. -/
theorem C9_sell_should_exit_missing_position (cfg : Config) (now : ℚ) (s : BrokerState)
    (symbol : String) (price : ℚ)
    (h : alookup symbol s.positions = none) :
    sell cfg now s symbol price = (none, s) ∧
      should_exit s symbol price = ((false, "no_pos"), s) := by
  constructor
  · unfold sell; rw [h]
  · unfold should_exit; rw [h]

/-- C9 witness: selling / exit-checking the absent symbol NOPE on the fresh
ledger. -/
theorem C9_witness :
    sell cfgW 5 stW "NOPE" 3 = (none, stW) ∧
      should_exit stW "NOPE" 3 = ((false, "no_pos"), stW) :=
  C9_sell_should_exit_missing_position cfgW 5 stW "NOPE" 3 (by decide)

/-- C10: when a symbol loss limit is configured, the symbol's cumulative PnL
is negative and at least 80% of the limit in magnitude, and the buy is still
admitted, the deducted stake is `stake_amount(symbol)` halved and only then
rescaled by `base_sl / requested_sl` — an extra sizing reduction applied
before the stop-loss rescale. -/
theorem C10_stake_halved_near_symbol_loss_limit (cfg : Config) (now : ℚ) (today : String)
    (s : BrokerState) (symbol : String) (price : ℚ) (meta : Meta) (L : ℚ) (r : BuyResult)
    (hL : cfg.symbol_loss_limit = some L)
    (hneg : (alookup symbol s.symbol_pnl).getD 0 < 0)
    (h80 : 0.8 * abs L ≤ abs ((alookup symbol s.symbol_pnl).getD 0))
    (hr : (buy cfg now today s symbol price meta).1 = some r)
    (hsl : 0 < meta.stop_loss_pct.getD cfg.stop_loss_pct) :
    (buy cfg now today s symbol price meta).2.balance =
      s.balance - stake_amount cfg s (some symbol) * 0.5 *
        (cfg.stop_loss_pct / meta.stop_loss_pct.getD cfg.stop_loss_pct) := by
  rw [buy_near_limit_halved_spec cfg now today s symbol price meta L r hL hneg h80 hr]
  unfold finalStake
  rw [if_pos hsl]

set_option maxRecDepth 40000 in
unseal Rat.mul Rat.add Rat.sub Rat.inv Rat.ofScientific in
/-- C10 witness: loss limit −10, cumulative AAA PnL −9 (90% of the limit):
the admitted buy deducts half of `stake_amount("AAA")`. -/
theorem C10_witness :
    (buy cfgL 1000000 "d" stL "AAA" 10 ({} : Meta)).2.balance =
      stL.balance - stake_amount cfgL stL (some "AAA") * 0.5 *
        (cfgL.stop_loss_pct / (({} : Meta).stop_loss_pct.getD cfgL.stop_loss_pct)) :=
  C10_stake_halved_near_symbol_loss_limit cfgL 1000000 "d" stL "AAA" 10 {} (-10)
    ⟨"AAA", 5, 10⟩ (by decide) (by decide) (by decide) (by decide) (by decide)

end Claims

end AutoTrader
